import Mathlib

/-!
Verification of the CC-license HTML extraction command
(`licenses/management/commands/load_html_files.py`).

An HTML document is embedded as a tree of nodes (`Node`); the BeautifulSoup
operations the source uses (`soup.find(id=...)`, tag-name attribute access,
`find_next_sibling(s)`, `.string`, `.get_text()`, `str(...)`) are given as
tree-walking functions over that embedding.  The helper functions imported
from `licenses.bs_utils` and `licenses.utils` are not part of the source tree
and are modelled from the spec where their doc comments say so.
-/

/-- A parsed HTML node: either a text node (BeautifulSoup `NavigableString`)
or an element (`Tag`) with a tag name, attributes and children. -/
inductive Node where
  | text (s : String)
  | elem (name : String) (attrs : List (String × String)) (children : List Node)

namespace Node

/-- `list(tag)` / iterating a tag: its direct children (a text node has none). -/
def children : Node → List Node
  | text _ => []
  | elem _ _ kids => kids

/-- BeautifulSoup `.name`: `None` for a `NavigableString`, the tag name for a `Tag`. -/
def nodeName? : Node → Option String
  | text _ => none
  | elem n _ _ => some n

/-- The attribute list of an element (empty for a text node). -/
def attrList : Node → List (String × String)
  | text _ => []
  | elem _ a _ => a

/-- `tag.get("id")`: the value of the `id` attribute, when present. -/
def idAttr? : Node → Option String
  | text _ => none
  | elem _ a _ => (a.find? (fun p => p.1 = "id")).map (·.2)

/-- `isinstance(item, Tag) and item.get("id") == i`. -/
def hasId (n : Node) (i : String) : Bool := n.idAttr? = some i

/-- Whether the node is an element with the given tag name. -/
def isNamed (n : Node) (name : String) : Bool := n.nodeName? = some name

/-- BeautifulSoup `.string`: a text node is its own string; a tag with exactly
one child recurses into it; any other tag yields `None`. -/
def string? : Node → Option String
  | text s => some s
  | elem _ _ [c] => string? c
  | elem _ _ _ => none

end Node

/-- Serialization of an attribute list, as BeautifulSoup renders it inside an
opening tag (attribute-value escaping is not needed for the inputs modelled). -/
def serializeAttrs : List (String × String) → String
  | [] => ""
  | (k, v) :: rest => " " ++ k ++ "=\"" ++ v ++ "\"" ++ serializeAttrs rest

mutual

/-- Python `str(tag)`: the node serialized back to markup. -/
def serializeNode : Node → String
  | .text s => s
  | .elem n a kids =>
      "<" ++ n ++ serializeAttrs a ++ ">" ++ serializeNodes kids ++ "</" ++ n ++ ">"

/-- Serialization of a list of sibling nodes, in order. -/
def serializeNodes : List Node → String
  | [] => ""
  | c :: cs => serializeNode c ++ serializeNodes cs

end

mutual

/-- BeautifulSoup `.get_text()`: all descendant text, concatenated, markup
discarded (the spec's `flattened_text` / `nested_text`). -/
def getTextNode : Node → String
  | .text s => s
  | .elem _ _ kids => getTextNodes kids

/-- `get_text` over a list of sibling nodes, in order. -/
def getTextNodes : List Node → String
  | [] => ""
  | c :: cs => getTextNode c ++ getTextNodes cs

end

mutual

/-- Document-order (preorder) search below a list of sibling nodes: the first
node satisfying `p`, together with its following siblings.  This is the common
core of `soup.find(id=...)`, tag-name access and `find_next_sibling(s)`. -/
def findRestInList (p : Node → Bool) : List Node → Option (Node × List Node)
  | [] => none
  | c :: cs =>
      if p c then some (c, cs)
      else
        match findRestInNode p c with
        | some r => some r
        | none => findRestInList p cs

/-- Preorder search among the strict descendants of one node. -/
def findRestInNode (p : Node → Bool) : Node → Option (Node × List Node)
  | .text _ => none
  | .elem _ _ kids => findRestInList p kids

end

/-- `soup.find(id=i)` on the whole document, also returning the following
siblings of the match (for `find_next_sibling(s)` uses). -/
def findIdRest (soup : Node) (i : String) : Option (Node × List Node) :=
  findRestInList (fun n => n.hasId i) [soup]

/-- `soup.find(id=i)`: the first node in document order carrying the id. -/
def findIdNode (soup : Node) (i : String) : Option Node :=
  (findIdRest soup i).map (·.1)

/-- BeautifulSoup tag-name attribute access (`tag.strong`, `tag.b`, `tag.p`,
`tag.div`, `tag.ol`, `tag.h2`, `tag.h3`): the first descendant element with
that name, in document order. -/
def Node.firstNamed (n : Node) (name : String) : Option Node :=
  (findRestInNode (fun c => c.isNamed name) n).map (·.1)

mutual

/-- `tag.find_all(name)` (recursive): every descendant element with the given
name, in document order, descending into matches as well. -/
def findAllNamedInList (name : String) : List Node → List Node
  | [] => []
  | c :: cs => findAllNamedInNode name c ++ findAllNamedInList name cs

/-- `find_all` among one node and its descendants. -/
def findAllNamedInNode (name : String) : Node → List Node
  | .text _ => []
  | .elem n a kids =>
      (if n = name then [Node.elem n a kids] else []) ++ findAllNamedInList name kids

end

mutual

/-- The children list of the parent of the first node (in document order)
carrying the given id: `soup.find(id=i).parent` followed by `.children`.
`self` is the children list of the node currently being scanned. -/
def parentKidsInList (i : String) (self : List Node) : List Node → Option (List Node)
  | [] => none
  | c :: cs =>
      if c.hasId i then some self
      else
        match parentKidsInNode i c with
        | some r => some r
        | none => parentKidsInList i self cs

/-- `parentKidsInList` below one node. -/
def parentKidsInNode (i : String) : Node → Option (List Node)
  | .text _ => none
  | .elem _ _ kids => parentKidsInList i kids kids

end

/-- `soup.find(id=i).parent.children` (the id is assumed to sit below the root,
as it does for every anchor of these documents). -/
def parentChildren (soup : Node) (i : String) : Option (List Node) :=
  parentKidsInNode i soup

/-- Boolean list-prefix test. -/
def listPrefixOf : List Char → List Char → Bool
  | [], _ => true
  | _ :: _, [] => false
  | a :: as, b :: bs => a = b && listPrefixOf as bs

/-- Boolean contiguous-sublist test. -/
def listInfixOf (needle : List Char) : List Char → Bool
  | [] => needle.isEmpty
  | b :: bs => listPrefixOf needle (b :: bs) || listInfixOf needle bs

/-- Python `needle in haystack` on strings: contiguous-substring test. -/
def strContains (haystack needle : String) : Bool :=
  listInfixOf needle.data haystack.data

/-- Python `s.endswith(suffix)`. -/
def strEndsWith (s suffix : String) : Bool :=
  listPrefixOf suffix.data.reverse s.data.reverse

/-- Python `s.strip()`: surrounding whitespace removed (the source strips only
ASCII whitespace in practice; `Char.isWhitespace` covers it). -/
def pyStrip (s : String) : String :=
  String.mk (((s.data.dropWhile Char.isWhitespace).reverse.dropWhile
    Char.isWhitespace).reverse)

/-- The opening-tag normalization of `import_by_40_license_html` (source lines
232-239): `raw_html.replace("<b>", "<strong>")` and the `</b>`, `<B>`, `</B>`
variants, performed on the raw markup string before parsing.  At tree level
this rewrites exactly those `b`/`B` elements whose serialized opening tag is
the bare literal (`<b>`/`<B>`), i.e. the attribute-free ones; a `b` element
carrying attributes serializes as e.g. `<b class="x">`, which the literal
string replacement does not touch (its stray `</strong>` end tag is repaired
by the lenient HTML parser, leaving the `b` element in the parsed tree). -/
def normalizeTagName (n : String) (a : List (String × String)) : String :=
  if (n = "b" ∨ n = "B") ∧ a = [] then "strong" else n

mutual

/-- Tag normalization applied over the whole raw document. -/
def normalizeTags : Node → Node
  | .text s => .text s
  | .elem n a kids => .elem (normalizeTagName n a) a (normalizeTagsList kids)

/-- `normalizeTags` over a list of sibling nodes. -/
def normalizeTagsList : List Node → List Node
  | [] => []
  | c :: cs => normalizeTags c :: normalizeTagsList cs

end

/-- `expected_definitions.insert(expected_definitions.index(after_this) + 1,
what_to_insert)` (source lines 269-271): insert directly after the first
occurrence of the anchor.  The anchor is present in every call the source
makes (its absence would be a `ValueError`, the spec's `SchemaFault`); on an
absent anchor this embedding returns the list unchanged. -/
def insertAfter (l : List String) (after_this what_to_insert : String) : List String :=
  match l with
  | [] => []
  | x :: xs =>
      if x = after_this then x :: what_to_insert :: xs
      else x :: insertAfter xs after_this what_to_insert

/-- The resolved definitions Field Schema (source lines 255-294): the base
list common to all BY 4.0 licenses followed by the variant-conditioned
insertions, with the documented (by-sa, pt) extra definition. -/
def expectedDefinitions (license_code language_code : String) : List String :=
  let base := ["adapted_material",
               "copyright_and_similar_rights",
               "effective_technological_measures",
               "exceptions_and_limitations",
               "licensed_material",
               "licensed_rights",
               "licensor",
               "share",
               "sui_generis_database_rights",
               "you"]
  if license_code = "by-sa" then
    let l := insertAfter base "adapted_material" "adapters_license"
    let l := insertAfter l "adapters_license" "by_sa_compatible_license"
    let l := insertAfter l "exceptions_and_limitations" "license_elements_sa"
    -- BY-SA 4.0 for "pt" has an extra definition (upstream issue 1153).
    if language_code = "pt" then insertAfter l "you" "you2" else l
  else if license_code = "by" then
    insertAfter base "adapted_material" "adapters_license"
  else if license_code = "by-nc" then
    let l := insertAfter base "adapted_material" "adapters_license"
    insertAfter l "licensor" "noncommercial"
  else if license_code = "by-nd" then
    base
  else if license_code = "by-nc-nd" then
    insertAfter base "licensor" "noncommercial"
  else if license_code = "by-nc-sa" then
    let l := insertAfter base "adapted_material" "adapters_license"
    let l := insertAfter l "exceptions_and_limitations" "license_elements_nc_sa"
    let l := insertAfter l "adapters_license" "by_nc_sa_compatible_license"
    insertAfter l "licensor" "noncommercial"
  else
    base

/-- The faults the command can raise while processing one document.
`pyError` stands for an ordinary Python exception (`AttributeError`,
`IndexError`, a propagated bs_utils fault, …), which a batch caller could
catch per document; `processExit` stands for `sys.exit`, which raises
`SystemExit` and terminates the whole process; `incompleteExtraction` is the
validation fault. -/
inductive ImportError where
  | pyError (what : String)
  | processExit (code : Nat)
  | incompleteExtraction (field : String)
deriving DecidableEq

/-- Whether the fault tears down the whole run instead of being a
per-document exception a batch caller could catch and skip. -/
def ImportError.abortsRun : ImportError → Bool
  | .processExit _ => true
  | _ => false

/-- The Field Map: Python dict in insertion order; a value is `none` when the
source stored Python `None` (a failed BeautifulSoup `.string`). -/
abbrev Messages := List (String × Option String)

/-- `messages[k] = v`: every key the command writes is written once per run,
so dict insertion is an append. -/
def insMsg (m : Messages) (k : String) (v : Option String) : Messages :=
  m ++ [(k, v)]

/-- `k in m` / `m[k]`: lookup by key. -/
def lookupMsg (m : Messages) (k : String) : Option (Option String) :=
  (m.find? (fun p => p.1 = k)).map (·.2)

/-- Dereference an optional value, raising a `pyError` the way the source
raises on `None` (attribute access, indexing, bs_utils `NotFound`). -/
def getE {α : Type} (o : Option α) (what : String) : Except ImportError α :=
  match o with
  | some a => Except.ok a
  | none => Except.error (.pyError what)

/-- Python `str(x)` where `x` may be `None`: `str(None)` is the literal
string `None`, not an error. -/
def pyStr : Option Node → String
  | some n => serializeNode n
  | none => "None"

/-- Modelled from the spec: `inner_html` (licenses/bs_utils, not under src/):
the serialized content of all children of the node, excluding the node's own
opening and closing markers. -/
def innerHtml (n : Node) : String := serializeNodes n.children

/-- Modelled from the spec: `text_up_to` (licenses/bs_utils, not under src/):
serialized content of the node up to, and not including, its first child
matching the boundary tag. -/
def textUpTo (n : Node) (boundary : String) : String :=
  serializeNodes (n.children.takeWhile (fun c => !c.isNamed boundary))

/-- Split a sibling list at the first element with the given tag name. -/
def splitFirstNamed (name : String) : List Node → Option (List Node × Node × List Node)
  | [] => none
  | c :: cs =>
      if c.isNamed name then some ([], c, cs)
      else (splitFirstNamed name cs).map (fun r => (c :: r.1, r.2.1, r.2.2))

/-- Modelled from the spec: `name_and_text` (licenses/bs_utils, not under
src/): splits a node's content into the content of its first emphasized
(strong) child and all remaining text of the node with that leading emphasis
stripped; the absence of the emphasis propagates as a fault. -/
def nameAndText (n : Node) : Except ImportError (String × String) :=
  match splitFirstNamed "strong" n.children with
  | some (before, st, after) =>
      Except.ok (innerHtml st, pyStrip (getTextNodes (before ++ after)))
  | none => Except.error (.pyError "name_and_text: no emphasized child")

/-- The s2a license-grant title step (source lines 312-319): take the title
from a `strong` descendant, else from a `b` descendant, else print and
`sys.exit(1)`. -/
def s2aTitleStep (s2a : Node) : Except ImportError (String × Option String) :=
  match s2a.firstNamed "strong" with
  | some st => Except.ok ("s2a_license_grant_title", some (innerHtml st))
  | none =>
      match s2a.firstNamed "b" with
      | some bTag => Except.ok ("s2a_license_grant_title", some (innerHtml bTag))
      | none => Except.error (.processExit 1)

/-- The field name the s2a1B content is assigned to (source lines 333-348),
keyed by the `nc`/`nd` substring tests on the license code. -/
def s2a1BKey (license_code : String) : String :=
  if strContains license_code "nc" && strContains license_code "nd" then
    "s2a_license_grant_adapted_nc_nd"
  else if strContains license_code "nc" then
    "s2a_license_grant_adapted_nc"
  else if strContains license_code "nd" then
    "s2a_license_grant_adapted_nd"
  else
    "s2a_license_grant_adapted"

/-- The s2a1B assignment: exactly one of the four variant-keyed fields is
written, with the serialized, stripped first child as content. -/
def s2a1BStep (license_code content : String) (m : Messages) : Messages :=
  insMsg m (s2a1BKey license_code) (some content)

/-- The sibling scan for the database-rights postscript (source lines
467-480), as the source's two-flag loop: `s4_seen`/`take_next` start false;
the s4 child sets `s4_seen`; the first `ol` thereafter sets `take_next`; the
next sibling is captured.  Exhausting the siblings first yields `none`. -/
def s4ScanCapture : List Node → Bool → Bool → Option Node
  | [], _, _ => none
  | item :: rest, s4_seen, take_next =>
      if take_next then some item
      else if !s4_seen then
        (if item.hasId "s4" then s4ScanCapture rest true take_next
         else s4ScanCapture rest s4_seen take_next)
      else if item.nodeName? = some "ol" then s4ScanCapture rest s4_seen true
      else s4ScanCapture rest s4_seen take_next

/-- The postscript step: when the scan captures a sibling, its `.string` is
stored under the postscript field; when the siblings are exhausted first, the
loop simply ends and the Field Map is left as it was. -/
def s4PostscriptStep (parentKids : List Node) (m : Messages) : Messages :=
  match s4ScanCapture parentKids false false with
  | some item => insMsg m "s4_sui_generics_database_rights_postscript" item.string?
  | none => m

/-- The positional definitions loop (source lines 298-305): for the i-th list
item, `name_and_text` is taken first, then the i-th schema entry
(`IndexError` when the items outnumber the schema). -/
def definitionsLoop (expected : List String) :
    Nat → List Node → Messages → Except ImportError Messages
  | _, [], m => Except.ok m
  | i, li :: rest, m => do
    let nt ← nameAndText li
    let defn_key ← getE expected[i]? "expected_definitions[i]"
    definitionsLoop expected (i + 1) rest
      (insMsg m ("s1_definitions_" ++ defn_key) (some ("*" ++ nt.1 ++ "* " ++ nt.2)))

/-- The positional downstream-recipients loop (source lines 378-384): the
i-th schema entry is taken first, then `name_and_text`; each item yields a
`_name` and a `_text` field. -/
def downstreamLoop (expected : List String) :
    Nat → List Node → Messages → Except ImportError Messages
  | _, [], m => Except.ok m
  | i, li :: rest, m => do
    let key ← getE expected[i]? "expected_downstreams[i]"
    let nt ← nameAndText li
    downstreamLoop expected (i + 1) rest
      (insMsg (insMsg m ("s2a5_license_grant_downstream_" ++ key ++ "_name") (some nt.1))
        ("s2a5_license_grant_downstream_" ++ key ++ "_text") (some nt.2))

/-- The field-extraction body of `import_by_40_license_html` (source lines
241-524), over the already-normalized parsed tree: every anchor is located and
its field is written, in source order; faults propagate as `Except` errors. -/
def extractMessages (soup : Node) (license_code language_code : String) :
    Except ImportError Messages := do
  let m : Messages := []
  -- 243: deed_main_content = soup.find(id="deed-main-content") (deref at 245)
  let deedMainQ := findIdNode soup "deed-main-content"
  -- 244: license_medium
  let deedLicense ← getE (findIdNode soup "deed-license") "find deed-license"
  let h2 ← getE (deedLicense.firstNamed "h2") "deed-license.h2"
  let m := insMsg m "license_medium" (some (innerHtml h2))
  -- 245: license_long
  let deedMain ← getE deedMainQ "deed-main-content.h3"
  let (h3, h3rest) ← getE (findRestInNode (fun c => c.isNamed "h3") deedMain)
    "deed-main-content.h3"
  let m := insMsg m "license_long" (some (innerHtml h3))
  -- 246-248: license_intro = inner_html(h3.find_next_sibling("p"))
  let pIntro ← getE (h3rest.find? (fun c => c.isNamed "p")) "h3.find_next_sibling(p)"
  let m := insMsg m "license_intro" (some (innerHtml pIntro))
  -- 255-294: the resolved definitions schema
  let expected_definitions := expectedDefinitions license_code language_code
  -- 297: s1_definitions_title
  let (s1, s1rest) ← getE (findIdRest soup "s1") "find s1"
  let s1strong ← getE (s1.firstNamed "strong") "s1.strong"
  let m := insMsg m "s1_definitions_title" (some (innerHtml s1strong))
  -- 298-305: definitions are in the first "ol" next sibling of s1
  let ol1 ← getE ((s1rest.filter (fun c => c.isNamed "ol")).head?)
    "s1.find_next_siblings(ol)[0]"
  let m ← definitionsLoop expected_definitions 0 (findAllNamedInList "li" ol1.children) m
  -- 308: s2_scope
  let s2 ← getE (findIdNode soup "s2") "find s2"
  let s2strong ← getE (s2.firstNamed "strong") "s2.strong"
  let m := insMsg m "s2_scope" (some (innerHtml s2strong))
  -- 312-319: s2a_license_grant_title (strong, else b, else sys.exit(1))
  let s2a ← getE (findIdNode soup "s2a") "find s2a"
  let titleKV ← s2aTitleStep s2a
  let m := insMsg m titleKV.1 titleKV.2
  -- 322: s2a_license_grant_intro
  let s2a1 ← getE (findIdNode soup "s2a1") "find s2a1"
  let s2a1c ← getE s2a1.children.head? "list(s2a1)[0]"
  let m := insMsg m "s2a_license_grant_intro" (some (pyStrip (serializeNode s2a1c)))
  -- 324-331: s2a1A, keyed on the "nc" substring
  let s2a1A ← getE (findIdNode soup "s2a1A") "find s2a1A"
  let s2a1Ac ← getE s2a1A.children.head? "list(s2a1A)[0]"
  let shareKey :=
    if strContains license_code "nc" then "s2a_license_grant_share_nc"
    else "s2a_license_grant_share"
  let m := insMsg m shareKey (some (pyStrip (serializeNode s2a1Ac)))
  -- 333-348: s2a1B, four-way variant branching
  let s2a1B ← getE (findIdNode soup "s2a1B") "find s2a1B"
  let s2a1Bc ← getE s2a1B.children.head? "list(s2a1B)[0]"
  let m := s2a1BStep license_code (pyStrip (serializeNode s2a1Bc)) m
  -- 351-353: s2a2 exceptions
  let s2a2 ← getE (findIdNode soup "s2a2") "find s2a2"
  let nt2 ← nameAndText s2a2
  let m := insMsg m "s2a2_license_grant_exceptions_name" (some nt2.1)
  let m := insMsg m "s2a2_license_grant_exceptions_text" (some nt2.2)
  -- 356-358: s2a3 term
  let s2a3 ← getE (findIdNode soup "s2a3") "find s2a3"
  let nt3 ← nameAndText s2a3
  let m := insMsg m "s2a3_license_grant_term_name" (some nt3.1)
  let m := insMsg m "s2a3_license_grant_term_text" (some nt3.2)
  -- 361-363: s2a4 media
  let s2a4 ← getE (findIdNode soup "s2a4") "find s2a4"
  let nt4 ← nameAndText s2a4
  let m := insMsg m "s2a4_license_grant_media_name" (some nt4.1)
  let m := insMsg m "s2a4_license_grant_media_text" (some nt4.2)
  -- 366-368: str(s2a5.strong) — str(None) is the string "None"
  let s2a5 ← getE (findIdNode soup "s2a5") "find s2a5"
  let m := insMsg m "s2a5_license_grant_downstream_title"
    (some (pyStr (s2a5.firstNamed "strong")))
  -- 370-375: expected_downstreams (insert(1, "adapted_material") for the -sa codes)
  let expected_downstreams :=
    if license_code = "by-sa" || license_code = "by-nc-sa" then
      ["offer", "adapted_material", "no_restrictions"]
    else
      ["offer", "no_restrictions"]
  -- 378-384: top-level li elements under s2a5.div.ol
  let s2a5div ← getE (s2a5.firstNamed "div") "s2a5.div"
  let s2a5ol ← getE (s2a5div.firstNamed "ol") "s2a5.div.ol"
  let m ← downstreamLoop expected_downstreams 0
    (s2a5ol.children.filter (fun c => c.isNamed "li")) m
  -- 386-388: s2a6 no endorsement
  let s2a6 ← getE (findIdNode soup "s2a6") "find s2a6"
  let nt6 ← nameAndText s2a6
  let m := insMsg m "s2a6_license_grant_no_endorsement_name" (some nt6.1)
  let m := insMsg m "s2a6_license_grant_no_endorsement_text" (some nt6.2)
  -- 391-398: s2b other rights
  let s2b ← getE (findIdNode soup "s2b") "find s2b"
  let m := insMsg m "s2b_other_rights_title" (some (textUpTo s2b "ol"))
  let s2bol ← getE (s2b.firstNamed "ol") "s2b.ol"
  let text_items := s2bol.children.filter (fun c => c.isNamed "li")
  let ti0 ← getE text_items[0]? "text_items[0]"
  let m := insMsg m "s2b_other_rights_moral" (some (serializeNode ti0))
  let ti1 ← getE text_items[1]? "text_items[1]"
  let m := insMsg m "s2b_other_rights_patent" (some (serializeNode ti1))
  let ti2 ← getE text_items[2]? "text_items[2]"
  let waiveKey :=
    if strContains license_code "nc" then "s2b_other_rights_waive_nc"
    else "s2b_other_rights_waive_non_nc"
  let m := insMsg m waiveKey (some (serializeNode ti2))
  -- 401-406: section 3 conditions
  let (s3, s3rest) ← getE (findIdRest soup "s3") "find s3"
  let m := insMsg m "s3_conditions_title" (some (getTextNode s3))
  let s3p ← getE (s3rest.find? (fun c => c.isNamed "p")) "s3.find_next_sibling(p)"
  let m := insMsg m "s3_conditions_intro" (some (getTextNode s3p))
  let s3a ← getE (findIdNode soup "s3a") "find s3a"
  let m := insMsg m "s3_conditions_attribution" (some (textUpTo s3a "ol"))
  -- 408-415: keyed on the "nd" substring
  let s3a1 ← getE (findIdNode soup "s3a1") "find s3a1"
  let ifShareKey :=
    if strContains license_code "nd" then "s3_conditions_if_you_share_nd"
    else "s3_conditions_if_you_share_non_nd"
  let m := insMsg m ifShareKey (some (textUpTo s3a1 "ol"))
  -- 417-428: the s3a1A block
  let s3a1A ← getE (findIdNode soup "s3a1A") "find s3a1A"
  let m := insMsg m "s3_conditions_retain_the_following" (some (textUpTo s3a1A "ol"))
  let s3a1Ai ← getE (findIdNode soup "s3a1Ai") "find s3a1Ai"
  let m := insMsg m "s3_conditions_identification" (some (getTextNode s3a1Ai))
  let m := insMsg m "s3_conditions_copyright" (some (pyStr (findIdNode soup "s3a1Aii")))
  let m := insMsg m "s3_conditions_license" (some (pyStr (findIdNode soup "s3a1Aiii")))
  let m := insMsg m "s3_conditions_disclaimer" (some (pyStr (findIdNode soup "s3a1Aiv")))
  let m := insMsg m "s3_conditions_link" (some (pyStr (findIdNode soup "s3a1Av")))
  let m := insMsg m "s3_conditions_modified" (some (pyStr (findIdNode soup "s3a1B")))
  let m := insMsg m "s3_conditions_licensed" (some (pyStr (findIdNode soup "s3a1C")))
  let s3a2 ← getE (findIdNode soup "s3a2") "find s3a2"
  let s3a2c ← getE s3a2.children.head? "list(s3a2)[0]"
  let m := insMsg m "s3_conditions_satisfy" s3a2c.string?
  let s3a3 ← getE (findIdNode soup "s3a3") "find s3a3"
  let s3a3c ← getE s3a3.children.head? "list(s3a3)[0]"
  let m := insMsg m "s3_conditions_remove" s3a3c.string?
  -- 431-433: share-alike only
  let m ← if strEndsWith license_code "-sa" then do
      let s3b ← getE (findIdNode soup "s3b") "find s3b"
      let s3bstrong ← getE (s3b.firstNamed "strong") "s3b.strong"
      let m := insMsg m "sharealike_name" (some (getTextNode s3bstrong))
      let s3bp ← getE (s3b.firstNamed "p") "s3b.p"
      pure (insMsg m "sharealike_intro" (some (getTextNode s3bp)))
    else
      pure m
  -- 436-441: section 4 titles and intro
  let (s4, s4rest) ← getE (findIdRest soup "s4") "find s4"
  let m := insMsg m "s4_sui_generics_database_rights_titles" (some (getTextNode s4))
  let s4p ← getE (s4rest.find? (fun c => c.isNamed "p")) "s4.find_next_sibling(p)"
  let m := insMsg m "s4_sui_generics_database_rights_intro" s4p.string?
  -- 442-457: s4a, four-way variant branching (the nc-only and nd-only arms
  -- use str(...), so an absent anchor yields the string "None", not a fault)
  let m ← if strContains license_code "nc" && strContains license_code "nd" then do
      let s4a ← getE (findIdNode soup "s4a") "find s4a"
      pure (insMsg m "s4_sui_generics_database_rights_extract_reuse_nc_nd"
        (some (getTextNode s4a)))
    else if strContains license_code "nc" then
      pure (insMsg m "s4_sui_generics_database_rights_extract_reuse_nc"
        (some (pyStr (findIdNode soup "s4a"))))
    else if strContains license_code "nd" then
      pure (insMsg m "s4_sui_generics_database_rights_extract_reuse_nd"
        (some (pyStr (findIdNode soup "s4a"))))
    else do
      let s4a ← getE (findIdNode soup "s4a") "find s4a"
      pure (insMsg m "s4_sui_generics_database_rights_extract_reuse_non_nc_non_nd"
        (some (getTextNode s4a)))
  -- 458-462: s4b, keyed on endswith("-sa")
  let s4bNode ← getE (findIdNode soup "s4b") "find s4b"
  let s4bKey :=
    if strEndsWith license_code "-sa" then
      "s4_sui_generics_database_rights_adapted_material_sa"
    else
      "s4_sui_generics_database_rights_adapted_material_non-sa"
  let m := insMsg m s4bKey (some (getTextNode s4bNode))
  -- 463-465: s4c
  let s4c ← getE (findIdNode soup "s4c") "find s4c"
  let m := insMsg m "s4_sui_generics_database_rights_comply_s3a" (some (getTextNode s4c))
  -- 466-480: the freeform postscript after the ol that follows s4
  let s4parentKids ← getE (parentChildren soup "s4") "s4.parent"
  let m := s4PostscriptStep s4parentKids m
  -- 483-486: section 5 disclaimer (.string values, possibly None)
  let s5 ← getE (findIdNode soup "s5") "find s5"
  let m := insMsg m "s5_disclaimer_title" s5.string?
  let s5a ← getE (findIdNode soup "s5a") "find s5a"
  let m := insMsg m "s5_a" s5a.string?
  let s5b ← getE (findIdNode soup "s5b") "find s5b"
  let m := insMsg m "s5_b" s5b.string?
  let s5c ← getE (findIdNode soup "s5c") "find s5c"
  let m := insMsg m "s5_c" s5c.string?
  -- 489-505: section 6 termination; s6b intro has a dual shape
  let s6 ← getE (findIdNode soup "s6") "find s6"
  let m := insMsg m "s6_termination_title" (some (getTextNode s6))
  let s6a ← getE (findIdNode soup "s6a") "find s6a"
  let m := insMsg m "s6_termination_applies" (some (getTextNode s6a))
  let s6b ← getE (findIdNode soup "s6b") "find s6b"
  let reinstatesWhere :=
    match s6b.firstNamed "p" with
    | some p => getTextNode p
    | none => serializeNodes (s6b.children.takeWhile (fun c => c.nodeName? ≠ some "ol"))
  let m := insMsg m "s6_termination_reinstates_where" (some reinstatesWhere)
  -- 506-509
  let s6b1 ← getE (findIdNode soup "s6b1") "find s6b1"
  let m := insMsg m "s6_termination_reinstates_automatically" (some (getTextNode s6b1))
  let s6b2 ← getE (findIdNode soup "s6b2") "find s6b2"
  let m := insMsg m "s6_termination_reinstates_express" (some (getTextNode s6b2))
  -- 511-514: children_of_s6b[4:7] joined and stripped
  let m := insMsg m "s6_termination_reinstates_postscript"
    (some (pyStrip (serializeNodes ((s6b.children.drop 4).take 3))))
  -- 517-519: section 7
  let s7 ← getE (findIdNode soup "s7") "find s7"
  let m := insMsg m "s7_other_terms_title" s7.string?
  let s7a ← getE (findIdNode soup "s7a") "find s7a"
  let m := insMsg m "s7_a" s7a.string?
  let s7b ← getE (findIdNode soup "s7b") "find s7b"
  let m := insMsg m "s7_b" s7b.string?
  -- 522-524: section 8
  let s8 ← getE (findIdNode soup "s8") "find s8"
  let m := insMsg m "s8_interpretation_title" s8.string?
  let s8aN ← getE (findIdNode soup "s8a") "find s8a"
  let m := insMsg m "s8a" (some (innerHtml s8aN))
  let s8bN ← getE (findIdNode soup "s8b") "find s8b"
  let m := insMsg m "s8b" (some (innerHtml s8bN))
  let s8cN ← getE (findIdNode soup "s8c") "find s8c"
  let m := insMsg m "s8c" (some (innerHtml s8cN))
  let s8dN ← getE (findIdNode soup "s8d") "find s8d"
  let m := insMsg m "s8d" (some (innerHtml s8dN))
  pure m

/-- Modelled from the spec: `validate_dictionary_is_all_text` (licenses/utils,
not under src/): every value of a completed Field Map must be non-empty
textual content; the first offending field is the one reported.  A key that
was never written is not seen by this check. -/
def firstInvalidField : Messages → Option String
  | [] => none
  | (k, v) :: rest =>
      match v with
      | some s => if s = "" then some k else firstInvalidField rest
      | none => some k

/-- A Field Map passes validation when no field offends. -/
def validateMessages (m : Messages) : Bool :=
  (firstInvalidField m).isNone

/-- The validation call at the end of extraction (source line 526). -/
def validateStep (m : Messages) : Except ImportError Messages :=
  match firstInvalidField m with
  | some f => Except.error (.incompleteExtraction f)
  | none => Except.ok m

/-- `import_by_40_license_html` (source lines 225-528): normalize the raw
markup, parse, extract every field, validate, and return the Field Map. -/
def importBy40 (content : Node) (license_code language_code : String) :
    Except ImportError Messages :=
  (extractMessages (normalizeTags content) license_code language_code).bind validateStep

/-- The catalog-assembly loop of `handle` (source lines 174-184): for each
extracted field in insertion order, the entry key is the English map's value
when the field name is present there (a membership test), else the
translation itself; the entry value is empty for English, else the
translation, and the value is whitespace-stripped (`.strip()`) as it is put
into the entry.  A `None` translation outside English raises (`.strip()` on
`None`). -/
def stripValue (language_code : String) (translation : Option String) :
    Except ImportError String :=
  match (if language_code = "en" then some "" else translation) with
  | some s => Except.ok s
  | none => Except.error (.pyError "None.strip()")

/-- The per-entry fold of the same loop, in target-map insertion order. -/
def assembleCatalog (english : Messages) (language_code : String) :
    Messages → Except ImportError (List (Option String × String))
  | [] => Except.ok []
  | (internal_key, translation) :: rest => do
    let message_key : Option String :=
      match lookupMsg english internal_key with
      | some v => v
      | none => translation
    let message_value ← stripValue language_code translation
    let entries ← assembleCatalog english language_code rest
    Except.ok ((message_key, pyStrip message_value) :: entries)

/-- One (variant, language) pass of `handle`'s inner loop (source lines
140-184): extract and validate the Field Map, then assemble the catalog
against the already-computed English map. -/
def processLanguage (english : Messages) (content : Node)
    (license_code language_code : String) :
    Except ImportError (List (Option String × String)) :=
  (importBy40 content license_code language_code).bind
    (fun m => assembleCatalog english language_code m)

/-- A definitions-list item: an emphasized term plus its trailing text. -/
def defLi (term txt : String) : Node :=
  .elem "li" [] [.elem "strong" [] [.text term], .text txt]

/-- A synthetic BY-ND 4.0 document carrying every anchor the extractor visits.
`s2aKids` is the content of the s2a anchor; `s4tail` is what follows the
database-rights list inside the section-4 container. -/
def mkDoc (s2aKids : List Node) (s4tail : List Node) : Node :=
  .elem "html" [] [
    .elem "body" [] [
      .elem "div" [("id", "deed-license")] [.elem "h2" [] [.text "CC BY-ND 4.0"]],
      .elem "div" [("id", "deed-main-content")] ([
        .elem "h3" [] [.text "Attribution-NoDerivatives 4.0"],
        .elem "p" [] [.text "Intro paragraph."],
        .elem "p" [("id", "s1")] [.elem "strong" [] [.text "Definitions"]],
        .elem "ol" [] [defLi "Adapted Material" " means other material.",
                       defLi "Copyright and Similar Rights" " means copyright."],
        .elem "p" [("id", "s2")] [.elem "strong" [] [.text "Scope"]],
        .elem "p" [("id", "s2a")] s2aKids,
        .elem "p" [("id", "s2a1")] [.text "License grant intro."],
        .elem "p" [("id", "s2a1A")] [.text "share the material"],
        .elem "p" [("id", "s2a1B")] [.text "produce and reproduce"],
        .elem "p" [("id", "s2a2")] [.elem "strong" [] [.text "Exceptions."],
                                    .text " They apply."],
        .elem "p" [("id", "s2a3")] [.elem "strong" [] [.text "Term."],
                                    .text " Section 6a."],
        .elem "p" [("id", "s2a4")] [.elem "strong" [] [.text "Media."],
                                    .text " All media."],
        .elem "div" [("id", "s2a5")] [
          .elem "strong" [] [.text "Downstream recipients."],
          .elem "div" [] [.elem "ol" [] [
            .elem "li" [] [.elem "strong" [] [.text "Offer."],
                           .text " Every recipient."]]]],
        .elem "p" [("id", "s2a6")] [.elem "strong" [] [.text "No endorsement."],
                                    .text " Nothing here."],
        .elem "div" [("id", "s2b")] [
          .text "Other rights. ",
          .elem "ol" [] [
            .elem "li" [] [.text "Moral rights."],
            .elem "li" [] [.text "Patent rights."],
            .elem "li" [] [.text "Waiver."]]],
        .elem "p" [("id", "s3")] [.text "Conditions"],
        .elem "p" [] [.text "Your exercise is subject to conditions."],
        .elem "div" [("id", "s3a")] [.text "Attribution."],
        .elem "div" [("id", "s3a1")] [.text "If you share."],
        .elem "div" [("id", "s3a1A")] [.text "retain the following"],
        .elem "p" [("id", "s3a1Ai")] [.text "identification"],
        .elem "p" [("id", "s3a1Aii")] [.text "copyright notice"],
        .elem "p" [("id", "s3a1Aiii")] [.text "license notice"],
        .elem "p" [("id", "s3a1Aiv")] [.text "disclaimer notice"],
        .elem "p" [("id", "s3a1Av")] [.text "a link"],
        .elem "p" [("id", "s3a1B")] [.text "modified material"],
        .elem "p" [("id", "s3a1C")] [.text "licensed under"],
        .elem "p" [("id", "s3a2")] [.text "satisfy conditions"],
        .elem "p" [("id", "s3a3")] [.text "remove if requested"],
        .elem "div" [] ([
          .elem "p" [("id", "s4")] [.text "Database rights"],
          .elem "p" [] [.text "Where rights apply to your use."],
          .elem "ol" [] [
            .elem "li" [("id", "s4a")] [.text "extract and reuse"],
            .elem "li" [("id", "s4b")] [.text "adapted material"],
            .elem "li" [("id", "s4c")] [.text "comply with 3a"]]] ++ s4tail),
        .elem "p" [("id", "s5")] [.text "Disclaimer"],
        .elem "p" [("id", "s5a")] [.text "unless otherwise"],
        .elem "p" [("id", "s5b")] [.text "to the extent"],
        .elem "p" [("id", "s5c")] [.text "the disclaimer"],
        .elem "p" [("id", "s6")] [.text "Term and Termination"],
        .elem "p" [("id", "s6a")] [.text "applies for the term"],
        .elem "div" [("id", "s6b")] [
          .elem "p" [] [.text "where your right terminates"],
          .text "filler-a",
          .elem "ol" [] [
            .elem "li" [("id", "s6b1")] [.text "automatically"],
            .elem "li" [("id", "s6b2")] [.text "upon express"]],
          .text "filler-b",
          .text "postscript-one ",
          .text "postscript-two"],
        .elem "p" [("id", "s7")] [.text "Other terms"],
        .elem "p" [("id", "s7a")] [.text "not bound"],
        .elem "p" [("id", "s7b")] [.text "arrangements"],
        .elem "p" [("id", "s8")] [.text "Interpretation"],
        .elem "p" [("id", "s8a")] [.text "for the avoidance"],
        .elem "p" [("id", "s8b")] [.text "no waiver"],
        .elem "p" [("id", "s8c")] [.text "no limitation"],
        .elem "p" [("id", "s8d")] [.text "no privilege"]])]]

/-- A document whose section-4 container ends with the database-rights list:
the postscript scan runs out of siblings before capturing anything. -/
def exhaustDoc : Node :=
  mkDoc [.elem "strong" [] [.text "License grant."]] []

/-- A document whose s2a anchor holds the title in a `b` element that carries
an attribute — the shape the literal `<b>` string replacement leaves alone. -/
def bAttrDoc : Node :=
  mkDoc [.elem "b" [("class", "x")] [.text "License grant."]]
    [.text "Postscript after the list."]

/-- A document whose s2a anchor holds neither a `strong` nor a `b` element. -/
def bareS2aDoc : Node :=
  mkDoc [.text "License grant."] [.text "Postscript after the list."]


/-- C1 (counterexample): the resolved definitions schema for "by-nc-sa" is
not the 13-entry list the claim states — the source also inserts
"noncommercial" after "licensor" (line 294), giving 14 entries. -/
theorem C1_counterexample :
    expectedDefinitions "by-nc-sa" "en" ≠
      ["adapted_material", "adapters_license", "by_nc_sa_compatible_license",
       "copyright_and_similar_rights", "effective_technological_measures",
       "exceptions_and_limitations", "license_elements_nc_sa", "licensed_material",
       "licensed_rights", "licensor", "share", "sui_generis_database_rights",
       "you"] ∧
    (expectedDefinitions "by-nc-sa" "en").length = 14 := by
  constructor
  · decide
  · decide

/-- C1 (amended): for variant "by-nc-sa" the resolved definitions schema is,
for every language, exactly the 14-entry list
[adapted_material, adapters_license, by_nc_sa_compatible_license,
copyright_and_similar_rights, effective_technological_measures,
exceptions_and_limitations, license_elements_nc_sa, licensed_material,
licensed_rights, licensor, noncommercial, share, sui_generis_database_rights,
you] (matching 14 document list items); the pt exception applies only under
by-sa. -/
theorem C1_by_nc_sa_schema (language_code : String) :
    expectedDefinitions "by-nc-sa" language_code =
      ["adapted_material", "adapters_license", "by_nc_sa_compatible_license",
       "copyright_and_similar_rights", "effective_technological_measures",
       "exceptions_and_limitations", "license_elements_nc_sa", "licensed_material",
       "licensed_rights", "licensor", "noncommercial", "share",
       "sui_generis_database_rights", "you"] := by
  rfl

/-- C9: the resolved definitions schema depends only on the variant, except
that for (by-sa, pt) exactly one extra definitions field is inserted
immediately after "you"; any two languages yield the same schema for a
non-by-sa variant, and for by-sa whenever neither language is pt. -/
theorem C9_schema_language_independence :
    (∀ license_code l1 l2 : String, license_code ≠ "by-sa" →
        expectedDefinitions license_code l1 = expectedDefinitions license_code l2)
    ∧ (∀ l1 l2 : String, l1 ≠ "pt" → l2 ≠ "pt" →
        expectedDefinitions "by-sa" l1 = expectedDefinitions "by-sa" l2)
    ∧ (∀ lang : String, lang ≠ "pt" →
        expectedDefinitions "by-sa" "pt" =
          insertAfter (expectedDefinitions "by-sa" lang) "you" "you2") := by
  refine ⟨?_, ?_, ?_⟩
  · intro lc l1 l2 h
    simp only [expectedDefinitions, if_neg h]
  · intro l1 l2 h1 h2
    simp [expectedDefinitions, h1, h2]
  · intro lang h
    simp [expectedDefinitions, h]

/-- C9 (witness): concrete instances of the three parts. -/
theorem C9_witness :
    expectedDefinitions "by-nc" "fr" = expectedDefinitions "by-nc" "de" ∧
    expectedDefinitions "by-sa" "fr" = expectedDefinitions "by-sa" "de" ∧
    expectedDefinitions "by-sa" "pt" =
      insertAfter (expectedDefinitions "by-sa" "en") "you" "you2" :=
  ⟨C9_schema_language_independence.1 "by-nc" "fr" "de" (by decide),
   C9_schema_language_independence.2.1 "fr" "de" (by decide) (by decide),
   C9_schema_language_independence.2.2 "en" (by decide)⟩

/-- C6: the four combinations of the nc/nd variant flags send the s2a1B
content to four pairwise-distinct field names, and a run writes exactly the
one field selected by its flags. -/
theorem C6_s2a1B_variant_branching :
    (∀ c1 c2 : String,
        (strContains c1 "nc" ≠ strContains c2 "nc" ∨
         strContains c1 "nd" ≠ strContains c2 "nd") →
        s2a1BKey c1 ≠ s2a1BKey c2)
    ∧ (∀ c : String, s2a1BKey c ∈
        ["s2a_license_grant_adapted", "s2a_license_grant_adapted_nc",
         "s2a_license_grant_adapted_nd", "s2a_license_grant_adapted_nc_nd"])
    ∧ List.Pairwise (fun a b => a ≠ b)
        ["s2a_license_grant_adapted", "s2a_license_grant_adapted_nc",
         "s2a_license_grant_adapted_nd", "s2a_license_grant_adapted_nc_nd"]
    ∧ (∀ (c content : String) (m : Messages),
        (s2a1BStep c content m).map Prod.fst = m.map Prod.fst ++ [s2a1BKey c]) := by
  refine ⟨?_, ?_, ?_, ?_⟩
  · intro c1 c2 h
    cases h1 : strContains c1 "nc" <;> cases h2 : strContains c1 "nd" <;>
      cases h3 : strContains c2 "nc" <;> cases h4 : strContains c2 "nd" <;>
      simp_all [s2a1BKey]
  · intro c
    cases h1 : strContains c "nc" <;> cases h2 : strContains c "nd" <;>
      simp [s2a1BKey, h1, h2]
  · decide
  · intro c content m
    simp [s2a1BStep, insMsg]

/-- C6 (witness): the four concrete BY 4.0 variant codes hit distinct keys. -/
theorem C6_witness :
    s2a1BKey "by" ≠ s2a1BKey "by-nc" ∧
    s2a1BKey "by-nc" ≠ s2a1BKey "by-nc-nd" ∧
    s2a1BKey "by-nd" ≠ s2a1BKey "by-nc-nd" :=
  ⟨C6_s2a1B_variant_branching.1 "by" "by-nc" (Or.inl (by decide)),
   C6_s2a1B_variant_branching.1 "by-nc" "by-nc-nd" (Or.inr (by decide)),
   C6_s2a1B_variant_branching.1 "by-nd" "by-nc-nd" (Or.inl (by decide))⟩


theorem exceptBindOk {α β : Type} (a : α) (f : α → Except ImportError β) :
    (Except.ok a : Except ImportError α) >>= f = f a := rfl

theorem exceptBindError {α β : Type} (e : ImportError) (f : α → Except ImportError β) :
    (Except.error e : Except ImportError α) >>= f = Except.error e := rfl

/-- C4: in an assembled catalog, each entry's key is the English
(authoritative) map's value for the field when the field name is present
there, and the target map's own value for the field otherwise. -/
theorem C4_catalog_key_authoritative_fallback
    (english target : Messages) (language_code : String)
    (catalog : List (Option String × String))
    (h : assembleCatalog english language_code target = Except.ok catalog) :
    List.Forall₂
      (fun (t : String × Option String) (c : Option String × String) =>
        (∀ v, lookupMsg english t.1 = some v → c.1 = v) ∧
        (lookupMsg english t.1 = none → c.1 = t.2))
      target catalog := by
  induction target generalizing catalog with
  | nil =>
    simp only [assembleCatalog] at h
    cases h
    exact List.Forall₂.nil
  | cons td rest ih =>
    obtain ⟨k, tv⟩ := td
    simp only [assembleCatalog] at h
    cases hmv : stripValue language_code tv with
    | error e =>
      rw [hmv, exceptBindError] at h
      simp at h
    | ok s =>
      rw [hmv, exceptBindOk] at h
      cases hrest : assembleCatalog english language_code rest with
      | error e =>
        rw [hrest, exceptBindError] at h
        simp at h
      | ok entries =>
        rw [hrest, exceptBindOk] at h
        injection h with h
        subst h
        refine List.Forall₂.cons ⟨?_, ?_⟩ (ih entries hrest)
        · intro v hv
          simp [hv]
        · intro hn
          simp [hn]

/-- C4 (witness): a concrete assembly where one field is present in the
English map (key = English text) and one is absent (key = own translation). -/
theorem C4_witness :
    List.Forall₂
      (fun (t : String × Option String) (c : Option String × String) =>
        (∀ v, lookupMsg [("a", some "EN")] t.1 = some v → c.1 = v) ∧
        (lookupMsg [("a", some "EN")] t.1 = none → c.1 = t.2))
      [("a", some "TA"), ("b", some "TB")]
      [(some "EN", "TA"), (some "TB", "TB")] :=
  C4_catalog_key_authoritative_fallback [("a", some "EN")]
    [("a", some "TA"), ("b", some "TB")] "fr"
    [(some "EN", "TA"), (some "TB", "TB")] rfl

/-- C5 (counterexample): for a non-English language the catalog value is the
stripped translation, not the extracted text itself: a translation with
surrounding whitespace comes out trimmed. -/
theorem C5_counterexample :
    assembleCatalog [] "fr" [("f", some " x ")] = Except.ok [(some " x ", "x")] ∧
    (" x " : String) ≠ "x" := by
  constructor
  · rfl
  · decide

/-- C5 (amended): for the authoritative language (en) every catalog entry's
value is the empty string; for every other language each entry's value is
that language's extracted text for the field with surrounding whitespace
stripped. -/
theorem C5_translation_values :
    (∀ (english target : Messages) (catalog : List (Option String × String)),
        assembleCatalog english "en" target = Except.ok catalog →
        ∀ c ∈ catalog, c.2 = "")
    ∧ (∀ (english target : Messages) (language_code : String)
          (catalog : List (Option String × String)),
        language_code ≠ "en" →
        assembleCatalog english language_code target = Except.ok catalog →
        List.Forall₂
          (fun (t : String × Option String) (c : Option String × String) =>
            ∀ tv, t.2 = some tv → c.2 = pyStrip tv)
          target catalog) := by
  constructor
  · intro english target
    induction target with
    | nil =>
      intro catalog h c hc
      simp only [assembleCatalog] at h
      cases h
      simp at hc
    | cons td rest ih =>
      intro catalog h c hc
      obtain ⟨k, tv⟩ := td
      simp only [assembleCatalog] at h
      cases hmv : stripValue "en" tv with
      | error e =>
        rw [hmv, exceptBindError] at h
        simp at h
      | ok s =>
        have hs : s = "" := by
          simp only [stripValue, if_pos rfl] at hmv
          injection hmv with hmv
          exact hmv.symm
        rw [hmv, exceptBindOk] at h
        cases hrest : assembleCatalog english "en" rest with
        | error e =>
          rw [hrest, exceptBindError] at h
          simp at h
        | ok entries =>
          rw [hrest, exceptBindOk] at h
          injection h with h
          subst h
          cases hc with
          | head => rw [hs]; rfl
          | tail _ hc => exact ih entries hrest c hc
  · intro english target language_code catalog hlang h
    induction target generalizing catalog with
    | nil =>
      simp only [assembleCatalog] at h
      cases h
      exact List.Forall₂.nil
    | cons td rest ih =>
      obtain ⟨k, tv⟩ := td
      simp only [assembleCatalog] at h
      cases hmv : stripValue language_code tv with
      | error e =>
        rw [hmv, exceptBindError] at h
        simp at h
      | ok s =>
        have hs : tv = some s := by
          simp only [stripValue, if_neg hlang] at hmv
          cases tv with
          | none => simp at hmv
          | some t => injection hmv with hmv; rw [hmv]
        rw [hmv, exceptBindOk] at h
        cases hrest : assembleCatalog english language_code rest with
        | error e =>
          rw [hrest, exceptBindError] at h
          simp at h
        | ok entries =>
          rw [hrest, exceptBindOk] at h
          injection h with h
          subst h
          refine List.Forall₂.cons ?_ (ih entries hrest)
          intro tv2 htv2
          rw [hs] at htv2
          injection htv2 with htv2
          rw [htv2]

/-- C5 (witness): concrete instances of both parts — the English entry built
from a whitespace-laden translation has the empty value, and the French entry
carries the stripped translation. -/
theorem C5_witness :
    ((some " y " : Option String), "").2 = "" ∧
    List.Forall₂
      (fun (t : String × Option String) (c : Option String × String) =>
        ∀ tv, t.2 = some tv → c.2 = pyStrip tv)
      [("f", some " x ")] [(some " x ", "x")] :=
  ⟨C5_translation_values.1 [] [("g", some " y ")] [(some " y ", "")] rfl
      ((some " y " : Option String), "") (by simp),
   C5_translation_values.2 [] [("f", some " x ")] "fr" [(some " x ", "x")]
     (by decide) rfl⟩

/-- C7: a Field Map only ever comes out of `importBy40` validated (validation
is the last step of extraction), and a catalog is only ever assembled from a
Field Map that extraction returned — hence never from one that failed
validation. -/
theorem C7_validation_gates_assembly :
    (∀ (content : Node) (license_code language_code : String) (m : Messages),
        importBy40 content license_code language_code = Except.ok m →
        validateMessages m = true)
    ∧ (∀ (english : Messages) (content : Node) (license_code language_code : String)
          (catalog : List (Option String × String)),
        processLanguage english content license_code language_code = Except.ok catalog →
        ∃ m, importBy40 content license_code language_code = Except.ok m ∧
          validateMessages m = true ∧
          assembleCatalog english language_code m = Except.ok catalog) := by
  have h1 : ∀ (content : Node) (license_code language_code : String) (m : Messages),
      importBy40 content license_code language_code = Except.ok m →
      validateMessages m = true := by
    intro content license_code language_code m h
    unfold importBy40 at h
    cases hx : extractMessages (normalizeTags content) license_code language_code with
    | error e =>
      rw [hx] at h
      simp [Except.bind] at h
    | ok mm =>
      rw [hx] at h
      simp only [Except.bind] at h
      unfold validateStep at h
      cases hf : firstInvalidField mm with
      | some f =>
        rw [hf] at h
        simp at h
      | none =>
        rw [hf] at h
        injection h with h
        subst h
        simp [validateMessages, hf]
  refine ⟨h1, ?_⟩
  intro english content license_code language_code catalog h
  unfold processLanguage at h
  cases him : importBy40 content license_code language_code with
  | error e =>
    rw [him] at h
    simp [Except.bind] at h
  | ok m =>
    rw [him] at h
    simp only [Except.bind] at h
    exact ⟨m, rfl, h1 content license_code language_code m him, h⟩

/-- C7 (witness): the synthetic BY-ND document extracts successfully, and the
returned Field Map is validated. -/
theorem C7_witness :
    ∃ m, importBy40 exhaustDoc "by-nd" "en" = Except.ok m ∧
      validateMessages m = true := by
  cases him : importBy40 exhaustDoc "by-nd" "en" with
  | ok m =>
    exact ⟨m, rfl, C7_validation_gates_assembly.1 exhaustDoc "by-nd" "en" m him⟩
  | error e =>
    have hok : (importBy40 exhaustDoc "by-nd" "en").isOk = true := rfl
    rw [him] at hok
    exact absurd hok (by simp [Except.isOk, Except.toBool])

/-- C2 (counterexample): on a document whose section-4 container ends with the
database-rights list, the postscript scan exhausts the siblings without
capturing; extraction nevertheless succeeds (`toOption` is `some`) and the
postscript field is simply absent from the Field Map — not a hard failure. -/
theorem C2_counterexample :
    (importBy40 exhaustDoc "by-nd" "en").toOption.map
      (fun m => lookupMsg m "s4_sui_generics_database_rights_postscript") =
      some none := rfl

/-- C2 (amended): when the sibling scan runs out before reaching its capture
state, the postscript step raises no fault and leaves the Field Map exactly
as it was — the field is silently omitted. -/
theorem C2_postscript_silent_omission (items : List Node) (m : Messages)
    (h : s4ScanCapture items false false = none) :
    s4PostscriptStep items m = m := by
  unfold s4PostscriptStep
  rw [h]

/-- C2 (witness): a sibling list holding only the anchor exhausts the scan and
leaves the Field Map unchanged. -/
theorem C2_witness :
    s4PostscriptStep [Node.elem "p" [("id", "s4")] [Node.text "DB rights"]] [] = [] :=
  C2_postscript_silent_omission [Node.elem "p" [("id", "s4")] [Node.text "DB rights"]]
    [] rfl

/-- C3 (counterexample): on a document whose s2a anchor holds neither a
`strong` nor a `b` element, the import fails with `sys.exit(1)` — a fault
that tears down the whole process, leaving the batch caller no per-document
choice. -/
theorem C3_counterexample :
    importBy40 bareS2aDoc "by-nd" "en" = Except.error (.processExit 1) ∧
    (ImportError.processExit 1).abortsRun = true :=
  ⟨rfl, rfl⟩

/-- C3 (amended): when the s2a anchor contains neither emphasis shape the
extractor exits the process with status 1 (`sys.exit(1)`), aborting the whole
run rather than raising a per-document fault the batch driver could catch and
skip. -/
theorem C3_neither_shape_exits_process :
    (∀ s2a : Node, s2a.firstNamed "strong" = none → s2a.firstNamed "b" = none →
        s2aTitleStep s2a = Except.error (.processExit 1))
    ∧ (ImportError.processExit 1).abortsRun = true := by
  constructor
  · intro s2a h1 h2
    unfold s2aTitleStep
    rw [h1, h2]
  · rfl

/-- C3 (witness): a concrete anchor with neither shape. -/
theorem C3_witness :
    s2aTitleStep (Node.elem "p" [("id", "s2a")] [Node.text "License grant."]) =
      Except.error (.processExit 1) :=
  C3_neither_shape_exits_process.1
    (Node.elem "p" [("id", "s2a")] [Node.text "License grant."]) rfl rfl

mutual

/-- Whether an attribute-free `b`/`B` element — the bare spelling the literal
string replacement targets — occurs in the tree. -/
def hasBareB : Node → Bool
  | .text _ => false
  | .elem n a kids => ((n == "b" || n == "B") && a.isEmpty) || hasBareBList kids

/-- `hasBareB` over a list of sibling nodes. -/
def hasBareBList : List Node → Bool
  | [] => false
  | c :: cs => hasBareB c || hasBareBList cs

end

mutual

/-- Whether every `b`/`B` element of the tree is attribute-free. -/
def bAttrFree : Node → Bool
  | .text _ => true
  | .elem n a kids => (!(n == "b" || n == "B") || a.isEmpty) && bAttrFreeList kids

/-- `bAttrFree` over a list of sibling nodes. -/
def bAttrFreeList : List Node → Bool
  | [] => true
  | c :: cs => bAttrFree c && bAttrFreeList cs

end

mutual

/-- Whether no element named `b` occurs in the tree (itself included). -/
def noBNamed : Node → Bool
  | .text _ => true
  | .elem n _ kids => !(n == "b") && noBNamedList kids

/-- `noBNamed` over a list of sibling nodes. -/
def noBNamedList : List Node → Bool
  | [] => true
  | c :: cs => noBNamed c && noBNamedList cs

end

theorem normalizeTagName_not_bare (n : String) (a : List (String × String)) :
    ((normalizeTagName n a == "b" || normalizeTagName n a == "B") && a.isEmpty) =
      false := by
  unfold normalizeTagName
  by_cases hc : (n = "b" ∨ n = "B") ∧ a = []
  · rw [if_pos hc]
    rfl
  · rw [if_neg hc]
    cases a with
    | nil =>
      have hn : ¬(n = "b" ∨ n = "B") := fun hb => hc ⟨hb, rfl⟩
      have h1 : n ≠ "b" := fun he => hn (Or.inl he)
      have h2 : n ≠ "B" := fun he => hn (Or.inr he)
      simp [h1, h2]
    | cons x xs => simp

mutual

theorem normalizeTags_no_bareB : ∀ n : Node, hasBareB (normalizeTags n) = false
  | .text _ => rfl
  | .elem nm a kids => by
      show (((normalizeTagName nm a == "b" || normalizeTagName nm a == "B") &&
          a.isEmpty) || hasBareBList (normalizeTagsList kids)) = false
      rw [normalizeTagName_not_bare, normalizeTagsList_no_bareB kids]
      rfl

theorem normalizeTagsList_no_bareB :
    ∀ l : List Node, hasBareBList (normalizeTagsList l) = false
  | [] => rfl
  | c :: cs => by
      show (hasBareB (normalizeTags c) || hasBareBList (normalizeTagsList cs)) = false
      rw [normalizeTags_no_bareB c, normalizeTagsList_no_bareB cs]
      rfl

end

theorem normalizeTagName_idem (n : String) (a : List (String × String)) :
    normalizeTagName (normalizeTagName n a) a = normalizeTagName n a := by
  unfold normalizeTagName
  by_cases hc : (n = "b" ∨ n = "B") ∧ a = []
  · rw [if_pos hc]
    simp
  · rw [if_neg hc, if_neg hc]

mutual

theorem normalizeTags_idem : ∀ n : Node, normalizeTags (normalizeTags n) = normalizeTags n
  | .text _ => rfl
  | .elem nm a kids => by
      show Node.elem (normalizeTagName (normalizeTagName nm a) a) a
          (normalizeTagsList (normalizeTagsList kids)) =
        Node.elem (normalizeTagName nm a) a (normalizeTagsList kids)
      rw [normalizeTagName_idem, normalizeTagsList_idem kids]

theorem normalizeTagsList_idem :
    ∀ l : List Node, normalizeTagsList (normalizeTagsList l) = normalizeTagsList l
  | [] => rfl
  | c :: cs => by
      show normalizeTags (normalizeTags c) :: normalizeTagsList (normalizeTagsList cs) =
        normalizeTags c :: normalizeTagsList cs
      rw [normalizeTags_idem c, normalizeTagsList_idem cs]

end

theorem boolAndLeft {a b : Bool} (h : (a && b) = true) : a = true := by
  cases a with
  | true => rfl
  | false => exact absurd h (by simp)

theorem boolAndRight {a b : Bool} (h : (a && b) = true) : b = true := by
  cases a with
  | true => exact h
  | false => exact absurd h (by simp)

theorem normalizeTagName_ne_b (n : String) (a : List (String × String))
    (h : (!(n == "b" || n == "B") || a.isEmpty) = true) :
    (normalizeTagName n a == "b") = false := by
  unfold normalizeTagName
  by_cases hc : (n = "b" ∨ n = "B") ∧ a = []
  · rw [if_pos hc]
    rfl
  · rw [if_neg hc]
    by_cases hb : n = "b"
    · exfalso
      apply hc
      refine ⟨Or.inl hb, ?_⟩
      cases a with
      | nil => rfl
      | cons x xs =>
        rw [hb] at h
        exact absurd h (by simp)
    · exact beq_eq_false_iff_ne.mpr hb

mutual

theorem noB_of_bAttrFree : ∀ n : Node, bAttrFree n = true → noBNamed (normalizeTags n) = true
  | .text _, _ => rfl
  | .elem nm a kids, h => by
      have h1 : (!(nm == "b" || nm == "B") || a.isEmpty) = true := boolAndLeft h
      have h2 : bAttrFreeList kids = true := boolAndRight h
      show (!(normalizeTagName nm a == "b") && noBNamedList (normalizeTagsList kids)) = true
      rw [normalizeTagName_ne_b nm a h1, noBList_of_bAttrFree kids h2]
      rfl

theorem noBList_of_bAttrFree :
    ∀ l : List Node, bAttrFreeList l = true → noBNamedList (normalizeTagsList l) = true
  | [], _ => rfl
  | c :: cs, h => by
      show (noBNamed (normalizeTags c) && noBNamedList (normalizeTagsList cs)) = true
      rw [noB_of_bAttrFree c (boolAndLeft h), noBList_of_bAttrFree cs (boolAndRight h)]
      rfl

end

theorem isNamed_b_false : ∀ c : Node, noBNamed c = true → c.isNamed "b" = false
  | .text _, _ => rfl
  | .elem nm a kids, h => by
      have h1 : (!(nm == "b")) = true := boolAndLeft h
      have h2 : nm ≠ "b" := by
        intro he
        rw [he] at h1
        exact absurd h1 (by decide)
      simp [Node.isNamed, Node.nodeName?, h2]

mutual

theorem findB_none :
    ∀ n : Node, noBNamed n = true →
      findRestInNode (fun c => c.isNamed "b") n = none
  | .text _, _ => rfl
  | .elem nm a kids, h => by
      show findRestInList (fun c => c.isNamed "b") kids = none
      exact findBList_none kids (boolAndRight h)

theorem findBList_none :
    ∀ l : List Node, noBNamedList l = true →
      findRestInList (fun c => c.isNamed "b") l = none
  | [], _ => rfl
  | c :: cs, h => by
      have hc : noBNamed c = true := boolAndLeft h
      have hcs : noBNamedList cs = true := boolAndRight h
      show findRestInList (fun c => c.isNamed "b") (c :: cs) = none
      simp [findRestInList, isNamed_b_false c hc, findB_none c hc,
        findBList_none cs hcs]

end

/-- C8 (counterexample): normalization rewrites only the bare spellings, so a
`b` element carrying an attribute survives it, and the structural lookup the
s2a step performs (`tag.b`) still observes a `b` element after normalization. -/
theorem C8_counterexample :
    ((normalizeTags (Node.elem "p" [("id", "s2a")]
        [Node.elem "b" [("lang", "x")] [Node.text "T"]])).firstNamed "b").isSome =
      true := rfl

/-- C8 (amended): the import pipeline applies tag normalization exactly once,
on the whole raw tree, before any anchor is located (it factors as extraction
after `normalizeTags`, and a second application changes nothing); after it no
attribute-free (bare) `b`/`B` element remains, though `b` elements carrying
attributes can still be observed by extraction steps. -/
theorem C8_normalization_once_before_parse :
    (∀ (content : Node) (license_code language_code : String),
        importBy40 content license_code language_code =
          (extractMessages (normalizeTags content) license_code language_code).bind
            validateStep)
    ∧ (∀ n : Node, hasBareB (normalizeTags n) = false)
    ∧ (∀ n : Node, normalizeTags (normalizeTags n) = normalizeTags n) :=
  ⟨fun _ _ _ => rfl, normalizeTags_no_bareB, normalizeTags_idem⟩

/-- C10 (counterexample): a document whose s2a anchor holds its title in
`<b class="x">` produces the s2a title field through the `b` fallback branch:
the import succeeds, the field holds the `b` element's content, and the
normalized s2a anchor has no `strong` descendant at all. -/
theorem C10_counterexample :
    (importBy40 bAttrDoc "by-nd" "en").toOption.map
        (fun m => lookupMsg m "s2a_license_grant_title") =
      some (some (some "License grant.")) ∧
    (findIdNode (normalizeTags bAttrDoc) "s2a").map
        (fun n => n.firstNamed "strong") = some none :=
  ⟨rfl, rfl⟩

/-- C10 (amended): normalization eliminates every `b` element only from trees
whose `b`/`B` elements are all attribute-free; for such documents the s2a
title step either takes the `strong` branch or exits, and the `b` branch
never produces the field — while a `b` element with attributes survives
normalization and keeps the branch reachable. -/
theorem C10_b_branch_reachability :
    (∀ raw : Node, bAttrFree raw = true → (normalizeTags raw).firstNamed "b" = none)
    ∧ (∀ s2a : Node, s2a.firstNamed "b" = none →
        s2aTitleStep s2a = Except.error (.processExit 1) ∨
        ∃ st, s2a.firstNamed "strong" = some st ∧
          s2aTitleStep s2a = Except.ok ("s2a_license_grant_title", some (innerHtml st))) := by
  constructor
  · intro raw h
    unfold Node.firstNamed
    rw [findB_none (normalizeTags raw) (noB_of_bAttrFree raw h)]
    rfl
  · intro s2a h
    cases hst : s2a.firstNamed "strong" with
    | some st =>
      refine Or.inr ⟨st, rfl, ?_⟩
      unfold s2aTitleStep
      rw [hst]
    | none =>
      refine Or.inl ?_
      unfold s2aTitleStep
      rw [hst, h]

/-- C10 (witness): a bare `<b>` title node is normalized away (no `b` element
remains), and the resulting anchor goes through the `strong` branch. -/
theorem C10_witness :
    (normalizeTags (Node.elem "p" [("id", "s2a")]
        [Node.elem "b" [] [Node.text "T"]])).firstNamed "b" = none ∧
    (s2aTitleStep (normalizeTags (Node.elem "p" [("id", "s2a")]
          [Node.elem "b" [] [Node.text "T"]])) =
        Except.error (.processExit 1) ∨
      ∃ st, (normalizeTags (Node.elem "p" [("id", "s2a")]
            [Node.elem "b" [] [Node.text "T"]])).firstNamed "strong" = some st ∧
        s2aTitleStep (normalizeTags (Node.elem "p" [("id", "s2a")]
            [Node.elem "b" [] [Node.text "T"]])) =
          Except.ok ("s2a_license_grant_title", some (innerHtml st))) :=
  ⟨C10_b_branch_reachability.1 (Node.elem "p" [("id", "s2a")]
      [Node.elem "b" [] [Node.text "T"]]) rfl,
   C10_b_branch_reachability.2 (normalizeTags (Node.elem "p" [("id", "s2a")]
      [Node.elem "b" [] [Node.text "T"]]))
     (C10_b_branch_reachability.1 (Node.elem "p" [("id", "s2a")]
        [Node.elem "b" [] [Node.text "T"]]) rfl)⟩
